import Mathlib

/-!
Verification development for the manual DOM-editing subsystem of the
`reorg` browser extension (`src/core/manual/manual-editor.ts` and the
surrounding command plumbing in `src/chrome/content.ts`,
`src/core/types/common.ts` and the side-panel script).

The TypeScript classes are shallowly embedded: DOM elements become pure
records of text plus an attribute association list, the `CSSStyleDeclaration`
of an element is modelled by parsing/serialising the `style` attribute
string, and the stateful `ManualEditor` singleton becomes explicit state
passing over an `EditorSt` record.  Browser-supplied data (computed styles,
bounding rectangles, scroll offsets) is passed in as an environment.
Panel geometry (drag / dock / resize) is not modelled: no claim below
refers to it.
-/

/-- Association-list lookup for DOM attribute collections: attribute names
are unique in a real DOM element, so the first match is the binding. -/
def lookupA : List (String × String) → String → Option String
  | [], _ => none
  | (k, w) :: t, n => if k = n then some w else lookupA t n

/-- `element.setAttribute(name, value)`: update the existing attribute in
place, or append a new one. -/
def setAttrL : List (String × String) → String → String → List (String × String)
  | [], n, v => [(n, v)]
  | (k, w) :: t, n, v => if k = n then (k, v) :: t else (k, w) :: setAttrL t n v

/-- `element.removeAttribute(name)`. -/
def removeAttrL (l : List (String × String)) (n : String) : List (String × String) :=
  l.filter (fun kv => kv.1 ≠ n)

/-- A DOM element as far as the manual editor observes it: its text content
and its attribute list (which includes any `style` attribute). -/
structure DomElem where
  text : String
  attrs : List (String × String)
deriving DecidableEq, Repr

def DomElem.getAttr (el : DomElem) (n : String) : Option String :=
  lookupA el.attrs n

/-- Split a character list on a separator character. -/
def splitOnChar (sep : Char) : List Char → List (List Char)
  | [] => [[]]
  | c :: rest =>
      let r := splitOnChar sep rest
      if c = sep then [] :: r
      else
        match r with
        | [] => [[c]]
        | h :: t => (c :: h) :: t

/-- Split a character list at its first `:`, when one exists. -/
def splitFirstColon : List Char → Option (List Char × List Char)
  | [] => none
  | c :: rest =>
      if c = ':' then some ([], rest)
      else (splitFirstColon rest).map fun pr => (c :: pr.1, pr.2)

def isSpaceChar (c : Char) : Bool :=
  c = ' ' ∨ c = '\t' ∨ c = '\n' ∨ c = '\r'

/-- Trim whitespace from both ends of a character list. -/
def trimChars (cs : List Char) : List Char :=
  ((cs.dropWhile isSpaceChar).reverse.dropWhile isSpaceChar).reverse

/-- Model of the browser's CSSOM parse of an inline `style` attribute:
declarations are split on `;`, each declaration on its first `:`, and both
sides are trimmed.  Empty or colon-free fragments are dropped. -/
def parseStyle (s : String) : List (String × String) :=
  (splitOnChar ';' s.data).filterMap fun decl =>
    match splitFirstColon decl with
    | none => none
    | some (k, v) =>
        let key := String.mk (trimChars k)
        if key = "" then none
        else some (key, String.mk (trimChars v))

/-- Model of the browser's CSSOM serialisation back into the `style`
attribute value. -/
def serializeStyle (decls : List (String × String)) : String :=
  match decls with
  | [] => ""
  | d :: rest =>
      rest.foldl (fun acc kv => acc ++ "; " ++ kv.1 ++ ": " ++ kv.2) (d.1 ++ ": " ++ d.2)

/-- `style.setProperty(p, v)` semantics on the declaration list: update in
place or append. -/
def setDecl : List (String × String) → String → String → List (String × String)
  | [], p, v => [(p, v)]
  | (k, w) :: t, p, v => if k = p then (k, v) :: t else (k, w) :: setDecl t p v

/-- `ManualEditor.setStyleProperty` (manual-editor.ts:1629) without the
selection guard, acting on the element: an empty value removes the
property (`style.removeProperty`), a non-empty value sets it
(`style.setProperty`).  Mutating the style object rewrites the `style`
attribute; removing a property from an element that has no `style`
attribute leaves the attribute absent. -/
def setStyleProperty (el : DomElem) (p v : String) : DomElem :=
  if v = "" then
    match el.getAttr "style" with
    | none => el
    | some s =>
        let rewritten := serializeStyle ((parseStyle s).filter (fun d => d.1 ≠ p))
        { el with attrs := setAttrL el.attrs "style" rewritten }
  else
    let rewritten := serializeStyle (setDecl (parseStyle (el.getAttr "style" |>.getD "")) p v)
    { el with attrs := setAttrL el.attrs "style" rewritten }

/-- `ManualEditor.updateAttribute` (manual-editor.ts:1617) without the
selection guard: empty value removes, non-empty sets. -/
def updateAttribute (el : DomElem) (n v : String) : DomElem :=
  if v = "" then { el with attrs := removeAttrL el.attrs n }
  else { el with attrs := setAttrL el.attrs n v }

/-- `element.textContent = v`. -/
def setText (el : DomElem) (v : String) : DomElem :=
  { el with text := v }

/-- The mutations the panel can apply to the live element after selection:
text edits, attribute edits (`updateAttribute`: empty value removes),
direct `id` / `class` assignment, and inline style edits. -/
inductive Mutation where
  | setTextM (s : String)
  | updateAttrM (name value : String)
  | assignIdM (value : String)
  | assignClassM (value : String)
  | setStylePropM (property value : String)
deriving DecidableEq, Repr

def applyMut (el : DomElem) : Mutation → DomElem
  | .setTextM s => setText el s
  | .updateAttrM n v => updateAttribute el n v
  | .assignIdM v => { el with attrs := setAttrL el.attrs "id" v }
  | .assignClassM v => { el with attrs := setAttrL el.attrs "class" v }
  | .setStylePropM p v => setStyleProperty el p v

def applyMuts (muts : List Mutation) (el : DomElem) : DomElem :=
  muts.foldl applyMut el

/-- The `SNAPSHOT_PROPERTIES` whitelist (manual-editor.ts:13). -/
def SNAPSHOT_PROPERTIES : List String :=
  ["background-color", "color", "font-size", "font-family", "font-weight",
   "line-height", "letter-spacing", "text-transform", "text-align", "display",
   "flex-direction", "justify-content", "align-items", "gap", "width",
   "height", "max-width", "max-height", "min-width", "min-height",
   "margin-top", "margin-right", "margin-bottom", "margin-left",
   "padding-top", "padding-right", "padding-bottom", "padding-left",
   "border-width", "border-style", "border-color", "border-radius",
   "box-shadow", "background-image", "background-size", "background-repeat",
   "background-position"]

/-- `ElementSnapshot` (manual-editor.ts:4): text, the raw `style` attribute
(`none` when absent), every attribute, and the whitelisted computed
values. -/
structure ElementSnapshot where
  text : String
  style : Option String
  attributes : List (String × String)
  computed : List (String × String)
deriving DecidableEq, Repr

/-- `ManualEditor.createSnapshot` (manual-editor.ts:616).  The computed
style of the element is supplied by the environment function `computedEnv`
(`window.getComputedStyle`). -/
def createSnapshot (computedEnv : String → String) (el : DomElem) : ElementSnapshot :=
  { text := el.text
    style := el.getAttr "style"
    attributes := el.attrs
    computed := SNAPSHOT_PROPERTIES.map fun k => (k, computedEnv k) }

/-- The attribute-removal pass of `resetChanges` (manual-editor.ts:1654):
for each attribute name present on the element (the name list is captured
up front), remove it unless it is `style` or it occurs in the snapshot. -/
def removeLoop (snapAttrs : List (String × String)) (names : List String)
    (l : List (String × String)) : List (String × String) :=
  names.foldl
    (fun acc name =>
      if name = "style" then acc
      else if (lookupA snapAttrs name).isSome then acc
      else removeAttrL acc name)
    l

/-- The attribute-restoration pass of `resetChanges` (manual-editor.ts:1664):
re-set every snapshot attribute except `style`. -/
def setLoop (snapAttrs : List (String × String))
    (l : List (String × String)) : List (String × String) :=
  snapAttrs.foldl
    (fun acc kv => if kv.1 = "style" then acc else setAttrL acc kv.1 kv.2)
    l

/-- `ManualEditor.resetChanges` (manual-editor.ts:1641) acting on the
element (the `!selectedElement || !snapshot` guard lives at the editor
level): restore the text, restore the raw `style` attribute (removing it
when the snapshot has none), drop attributes absent from the snapshot and
re-set every snapshot attribute. -/
def resetChangesElem (el : DomElem) (snap : ElementSnapshot) : DomElem :=
  let el1 := { el with text := snap.text }
  let el2 :=
    match snap.style with
    | none => { el1 with attrs := removeAttrL el1.attrs "style" }
    | some s => { el1 with attrs := setAttrL el1.attrs "style" s }
  let names := el2.attrs.map Prod.fst
  let el3 := { el2 with attrs := removeLoop snap.attributes names el2.attrs }
  { el3 with attrs := setLoop snap.attributes el3.attrs }

/-- Digit string to natural number. -/
def digitsToNat (ds : List Char) : Nat :=
  ds.foldl (fun a c => 10 * a + (c.toNat - 48)) 0

/-- Model of JavaScript `Number.parseFloat`: skip leading whitespace, an
optional sign, decimal digits with an optional fraction and exponent;
trailing garbage is ignored.  `none` models `NaN` (no digit parsed).
`Infinity` literals are not modelled — no claim exercises them. -/
def jsParseFloat (s : String) : Option ℚ :=
  let cs := s.data.dropWhile Char.isWhitespace
  let sign : ℚ := match cs with
    | '-' :: _ => -1
    | _ => 1
  let cs1 := match cs with
    | '-' :: t => t
    | '+' :: t => t
    | t => t
  let intPart := cs1.takeWhile Char.isDigit
  let cs2 := cs1.drop intPart.length
  let fracPart := match cs2 with
    | '.' :: t => t.takeWhile Char.isDigit
    | _ => []
  let cs3 := match cs2 with
    | '.' :: t => t.drop fracPart.length
    | t => t
  if intPart.isEmpty && fracPart.isEmpty then none
  else
    let base : ℚ := (digitsToNat intPart : ℚ) + (digitsToNat fracPart : ℚ) / ((10 : ℚ) ^ fracPart.length)
    let expVal : Int :=
      match cs3 with
      | c :: t =>
          if c = 'e' ∨ c = 'E' then
            let esign : Int := match t with
              | '-' :: _ => -1
              | _ => 1
            let t2 := match t with
              | '-' :: u => u
              | '+' :: u => u
              | u => u
            let eds := t2.takeWhile Char.isDigit
            if eds.isEmpty then 0 else esign * (digitsToNat eds : Int)
          else 0
      | [] => 0
    some (sign * base * (10 : ℚ) ^ expVal)

/-- Strip trailing `0` characters from a digit string. -/
def stripTrailingZeros (s : String) : String :=
  ⟨(s.data.reverse.dropWhile (fun c => c = '0')).reverse⟩

/-- Left-pad a digit string with `0` to length `k`. -/
def padZeros (s : String) (k : Nat) : String :=
  ⟨List.replicate (k - s.length) '0' ++ s.data⟩

/-- Model of JavaScript number-to-string on the values `jsParseFloat`
produces (denominators always divide a power of ten, so the decimal
expansion is finite and rendered exactly). -/
def jsNumToString (q : ℚ) : String :=
  let sgn := if q < 0 then "-" else ""
  let n := q.num.natAbs
  let d := q.den
  match (List.range 41).find? (fun k => 10 ^ k % d = 0) with
  | some k =>
      let m := n * (10 ^ k / d)
      let ip := m / 10 ^ k
      let fp := m % 10 ^ k
      if fp = 0 then sgn ++ toString ip
      else sgn ++ toString ip ++ "." ++ stripTrailingZeros (padZeros (toString fp) k)
  | none => sgn ++ toString n ++ "/" ++ toString d

/-- Outcome of one `input` event in a side-panel numeric style field:
either the handler rejects the value up front, or it sends a
`MANUAL_SET_STYLE{property, value}` command. -/
inductive NumericOutcome where
  | rejected (msg : String)
  | sendStyle (property value : String)
deriving DecidableEq, Repr

/-- `attachNumericStyleHandler` (side-panel script, part_000:149): an empty
value clears the property; otherwise `Number.parseFloat` is applied and a
`NaN` result is rejected with `Err(new Error('Invalid numeric value'))`
before any command is sent. -/
def numericStyleHandlerStep (property unit value : String) : NumericOutcome :=
  if value = "" then .sendStyle property ""
  else
    match jsParseFloat value with
    | none => .rejected "Invalid numeric value"
    | some n =>
        let suffix := if unit = "" then jsNumToString n else jsNumToString n ++ unit
        .sendStyle property suffix

/-- Suffix helper of the in-page panel handlers:
`target.value ? target.value + 'px' : ''`. -/
def pxOrEmpty (v : String) : String :=
  if v = "" then "" else v ++ "px"

/-- The case-insensitive `/^url\(/i` test. -/
def startsWithUrlCI : List Char → Bool
  | u :: r :: l :: p :: _ =>
      (u == 'u' || u == 'U') && (r == 'r' || r == 'R') && (l == 'l' || l == 'L') && p == '('
  | _ => false

def charListStarts : List Char → List Char → Bool
  | [], _ => true
  | _ :: _, [] => false
  | p :: ps, c :: cs => p == c && charListStarts ps cs

/-- Whether `pat` occurs as a contiguous run inside the list. -/
def charListHasSub (pat : List Char) : List Char → Bool
  | [] => pat.isEmpty
  | c :: rest => charListStarts pat (c :: rest) || charListHasSub pat rest

/-- The `background-image` special case (manual-editor.ts:1417): empty
clears, values matching `/^url\(/i` or containing `gradient` pass through,
anything else is wrapped in `url(...)`. -/
def bgImageValue (v : String) : String :=
  if startsWithUrlCI v.data || charListHasSub "gradient".data v.data then v
  else "url(" ++ v ++ ")"

/-- The in-page panel `input` dispatch (`attachControlHandlers`,
manual-editor.ts:1359) applied to the selected element: one case per
control id, exactly mirroring the source switch.  Unknown ids fall through
to a no-op.  Note that no case validates its value — numeric fields rely
on the browser's `type="number"` input, which reports `''` for non-numeric
text. -/
def applyPanelInput (el : DomElem) (id value : String) : DomElem :=
  match id with
  | "llm-text" => setText el value
  | "llm-attr-id" => { el with attrs := setAttrL el.attrs "id" value }
  | "llm-attr-class" => { el with attrs := setAttrL el.attrs "class" value }
  | "llm-attr-title" => updateAttribute el "title" value
  | "llm-attr-aria-label" => updateAttribute el "aria-label" value
  | "llm-font-family" => setStyleProperty el "font-family" value
  | "llm-font-size" => setStyleProperty el "font-size" (pxOrEmpty value)
  | "llm-line-height" => setStyleProperty el "line-height" value
  | "llm-letter-spacing" => setStyleProperty el "letter-spacing" (pxOrEmpty value)
  | "llm-font-weight" => setStyleProperty el "font-weight" value
  | "llm-text-transform" => setStyleProperty el "text-transform" value
  | "llm-text-align" => setStyleProperty el "text-align" value
  | "llm-text-color" => setStyleProperty el "color" value
  | "llm-bg-color" => setStyleProperty el "background-color" value
  | "llm-border-color" => setStyleProperty el "border-color" value
  | "llm-bg-image" =>
      if value = "" then setStyleProperty el "background-image" ""
      else setStyleProperty el "background-image" (bgImageValue value)
  | "llm-bg-size" => setStyleProperty el "background-size" value
  | "llm-bg-position" => setStyleProperty el "background-position" value
  | "llm-opacity" => setStyleProperty el "opacity" value
  | "llm-margin-top" => setStyleProperty el "margin-top" (pxOrEmpty value)
  | "llm-margin-right" => setStyleProperty el "margin-right" (pxOrEmpty value)
  | "llm-margin-bottom" => setStyleProperty el "margin-bottom" (pxOrEmpty value)
  | "llm-margin-left" => setStyleProperty el "margin-left" (pxOrEmpty value)
  | "llm-padding-top" => setStyleProperty el "padding-top" (pxOrEmpty value)
  | "llm-padding-right" => setStyleProperty el "padding-right" (pxOrEmpty value)
  | "llm-padding-bottom" => setStyleProperty el "padding-bottom" (pxOrEmpty value)
  | "llm-padding-left" => setStyleProperty el "padding-left" (pxOrEmpty value)
  | "llm-display" => setStyleProperty el "display" value
  | "llm-gap" => setStyleProperty el "gap" (pxOrEmpty value)
  | "llm-flex-direction" => setStyleProperty el "flex-direction" value
  | "llm-justify" => setStyleProperty el "justify-content" value
  | "llm-align" => setStyleProperty el "align-items" value
  | "llm-width" => setStyleProperty el "width" value
  | "llm-height" => setStyleProperty el "height" value
  | "llm-max-width" => setStyleProperty el "max-width" value
  | "llm-max-height" => setStyleProperty el "max-height" value
  | "llm-min-width" => setStyleProperty el "min-width" value
  | "llm-min-height" => setStyleProperty el "min-height" value
  | "llm-border-width" => setStyleProperty el "border-width" (pxOrEmpty value)
  | "llm-border-style" => setStyleProperty el "border-style" value
  | "llm-border-radius" => setStyleProperty el "border-radius" (pxOrEmpty value)
  | "llm-box-shadow" => setStyleProperty el "box-shadow" value
  | _ => el

/-- `element.getBoundingClientRect()` viewport rectangle. -/
structure Rect where
  top : ℚ
  left : ℚ
  width : ℚ
  height : ℚ
deriving DecidableEq, Repr

/-- The highlight overlay's style fields that `updateHighlight` writes.
`ensureHighlightBox` (manual-editor.ts:526) creates the box with
`position: fixed`. -/
structure HighlightBox where
  display : String
  top : ℚ
  left : ℚ
  width : ℚ
  height : ℚ
deriving DecidableEq, Repr

/-- `ManualEditor.updateHighlight` (manual-editor.ts:587): always sets
`display: block` and writes `rect.top + window.scrollY` /
`rect.left + window.scrollX` and the rectangle's width and height. -/
def updateHighlight (rect : Rect) (scrollX scrollY : ℚ) : HighlightBox :=
  { display := "block"
    top := rect.top + scrollY
    left := rect.left + scrollX
    width := rect.width
    height := rect.height }

/-- A node of `selectedElement.childNodes` as the reorder logic sees it:
an element child (`instanceof HTMLElement`) or anything else. -/
inductive ChildNode (α : Type) where
  | element (a : α)
  | other
deriving DecidableEq, Repr

def elemPositionsAux {α : Type} : Nat → List (ChildNode α) → List Nat
  | _, [] => []
  | i, .element _ :: t => i :: elemPositionsAux (i + 1) t
  | i, .other :: t => elemPositionsAux (i + 1) t

/-- Positions (in the full child list) of the element children, i.e. the
result of `Array.from(children).filter(instanceof HTMLElement)` keeping
track of where each filtered child sits. -/
def elementPositions {α : Type} (l : List (ChildNode α)) : List Nat :=
  elemPositionsAux 0 l

def eraseAt {α : Type} : Nat → List α → List α
  | _, [] => []
  | 0, _ :: xs => xs
  | n + 1, x :: xs => x :: eraseAt n xs

def insertAt {α : Type} : Nat → α → List α → List α
  | 0, a, l => a :: l
  | _ + 1, a, [] => [a]
  | n + 1, a, x :: xs => x :: insertAt n a xs

/-- `ManualEditor.reorderChild` (manual-editor.ts:1330) acting on the
selected element's child list: equal indices are a no-op, the element-child
list is recomputed fresh, missing source or target children abort, and
otherwise the source node is moved with `target.after(source)` when moving
forward and `insertBefore(source, target)` when moving backward.  `p` and
`q` are the source and target positions in the full child list; erasing at
`p` shifts the target left by one exactly when `p < q`. -/
def reorderChild {α : Type} (sourceIndex targetIndex : Nat)
    (l : List (ChildNode α)) : List (ChildNode α) :=
  if sourceIndex = targetIndex then l
  else
    let ps := elementPositions l
    match ps[sourceIndex]?, ps[targetIndex]? with
    | some p, some q =>
        match l[p]? with
        | some src =>
            let removed := eraseAt p l
            let qNow := if p < q then q - 1 else q
            if sourceIndex < targetIndex then insertAt (qNow + 1) src removed
            else insertAt qNow src removed
        | none => l
    | some _, none => l
    | none, _ => l

/-- The page DOM as a tree: each node carries its observable data, whether
it is an `HTMLElement` (the child filters keep only these), and its
children.  Whether a node is editor chrome is derived from its `id`
attribute, as `isManualUI` does. -/
inductive DomTree where
  | node (data : DomElem) (isHtml : Bool) (kids : List DomTree)

def DomTree.data : DomTree → DomElem
  | .node d _ _ => d

def DomTree.isHtml : DomTree → Bool
  | .node _ h _ => h

def DomTree.kids : DomTree → List DomTree
  | .node _ _ k => k

/-- Dereference a path of child indices from the root. -/
def getPath : List Nat → DomTree → Option DomTree
  | [], t => some t
  | i :: rest, t =>
      match t.kids[i]? with
      | some c => getPath rest c
      | none => none

/-- Apply `f` to the data of the node at `p`, leaving the rest of the tree
unchanged. -/
def modifyAt : List Nat → (DomElem → DomElem) → DomTree → DomTree
  | [], f, .node d h k => .node (f d) h k
  | i :: rest, f, .node d h kids =>
      .node d h
        (match kids[i]? with
         | some c => kids.set i (modifyAt rest f c)
         | none => kids)

/-- The id test inside `isManualUI` (manual-editor.ts:1794). -/
def isEditorChrome (el : DomElem) : Bool :=
  el.getAttr "id" = some "llm-manual-editor" ∨ el.getAttr "id" = some "llm-manual-hud"

/-- `ManualEditor.isManualUI`: the node itself or any ancestor (`closest`)
is the editor panel or the HUD. -/
def isManualUIPath (page : DomTree) (p : List Nat) : Bool :=
  (List.range (p.length + 1)).any fun k =>
    match getPath (p.take k) page with
    | some t => isEditorChrome t.data
    | none => false

/-- `element.parentElement` on paths: the root has no parent. -/
def parentOf (p : List Nat) : Option (List Nat) :=
  match p with
  | [] => none
  | _ => some p.dropLast

/-- Observable outcome of a navigation action.  The source methods return
`void`: they either do nothing, show a toast, or select an element.  The
`errorResult` constructor is never produced by the code — it exists so the
spec's claimed error results can be stated and compared. -/
inductive NavOutcome where
  | silent
  | toast (msg : String)
  | selectedNav (p : List Nat)
  | errorResult (kind : String)
deriving DecidableEq, Repr

/-- `ManualEditor.jumpToParent` (manual-editor.ts:1706): silently returns
with no selection; shows the `No editable parent` toast when the selection
has no parent element or the parent is editor chrome; otherwise selects
the parent. -/
def jumpToParent (page : DomTree) (sel : Option (List Nat)) : NavOutcome :=
  match sel with
  | none => .silent
  | some p =>
      match parentOf p with
      | none => .toast "No editable parent"
      | some pp =>
          if isManualUIPath page pp then .toast "No editable parent"
          else .selectedNav pp

/-- The `select-child` click case (manual-editor.ts:1554): breaks silently
without a panel or selection, recomputes the element-child list fresh, and
selects `children[index]` only if it exists. -/
def selectChildNav (page : DomTree) (panelShown : Bool) (sel : Option (List Nat))
    (index : Nat) : NavOutcome :=
  if !panelShown then .silent
  else
    match sel with
    | none => .silent
    | some p =>
        match getPath p page with
        | none => .silent
        | some t =>
            let ps := elementPositions (t.kids.map fun c =>
              if c.isHtml then ChildNode.element c else ChildNode.other)
            match ps[index]? with
            | some j => .selectedNav (p ++ [j])
            | none => .silent

/-- The behaviour C5 claims, written from the claim's words for
comparison: `selectParent` fails with `NoSelectionError` with no
selection, with `NoParentError` when the selection has no parent element,
and otherwise selects the parent. -/
def claimedSelectParent (sel : Option (List Nat)) : NavOutcome :=
  match sel with
  | none => .errorResult "NoSelectionError"
  | some p =>
      match parentOf p with
      | none => .errorResult "NoParentError"
      | some pp => .selectedNav pp

/-- The global listeners `start()` installs and `stop()` removes. -/
inductive Listener where
  | mousemove
  | click
  | keydown
  | resize
deriving DecidableEq, Repr

/-- Success-or-error result as `Result<T>` in `core/types/common.ts`,
with the error collapsed to its message. -/
inductive RRes where
  | ok
  | err (msg : String)
deriving DecidableEq, Repr

/-- The mutable fields of the `ManualEditor` class (manual-editor.ts:53)
that the claims observe.  Element references become paths into the page
tree.  Panel geometry fields (dock state, position, size, opacity) are
omitted: no claim refers to them. -/
structure EditorSt where
  active : Bool
  hoverElement : Option (List Nat)
  selectedElement : Option (List Nat)
  snapshot : Option ElementSnapshot
  highlightBox : Option HighlightBox
  hud : Bool
  editorPanel : Bool
  styleElement : Bool
  toastElement : Bool
  toastTimeout : Option Nat
  listeners : List Listener
deriving DecidableEq, Repr

/-- The field initialisers of the class. -/
def initialEditor : EditorSt :=
  { active := false
    hoverElement := none
    selectedElement := none
    snapshot := none
    highlightBox := none
    hud := false
    editorPanel := false
    styleElement := false
    toastElement := false
    toastTimeout := none
    listeners := [] }

/-- Browser-supplied data: per-element computed styles
(`window.getComputedStyle`), bounding rectangles, and scroll offsets. -/
structure Env where
  computedOf : List Nat → String → String
  rectOf : List Nat → Rect
  scrollX : ℚ
  scrollY : ℚ

/-- The `Command` union of `core/types/common.ts:13`, with payloads kept
only where a claim inspects them (strategy and view payloads are
irrelevant to the manual editor and collapsed). -/
inductive Cmd where
  | capturePage
  | generateStrategy
  | executeStrategy
  | displayViews
  | saveStrategy
  | saveManualLayoutCmd
  | getManualLayout (domain : String)
  | getDomStructure
  | startManualMode
  | stopManualMode
  | manualGetState
  | manualSetText (value : String)
  | manualSetAttribute (name value : String)
  | manualSetStyle (property value : String)
  | manualSelectParent
  | manualSelectChild (index : Nat)
  | manualReset
  | manualSaveLayout
  | openSidePanel
  | manualStateUpdated
deriving DecidableEq, Repr

/-- What the content script replies with (`content.ts` message handler):
the four known command types are handled (their inner results abstracted),
everything else falls through to
`{ success: false, error: 'Unknown command' }`. -/
inductive ContentReply where
  | handled
  | failure (msg : String)
deriving DecidableEq, Repr

/-- The `switch` of the `ChromeMessaging.onMessage` handler in
`src/chrome/content.ts`. -/
def contentDispatch (c : Cmd) : ContentReply :=
  match c with
  | .getDomStructure => .handled
  | .executeStrategy => .handled
  | .startManualMode => .handled
  | .stopManualMode => .handled
  | _ => .failure "Unknown command"

/-- Count of `MANUAL_STATE_UPDATED` messages in an emission list. -/
def countBroadcasts (l : List Cmd) : Nat :=
  (l.filter fun c =>
    match c with
    | .manualStateUpdated => true
    | _ => false).length

/-- `ManualEditor.start` (manual-editor.ts:75): no-op success when already
active; otherwise injects the stylesheet (if absent), creates the HUD and
installs the four global listeners. -/
def startFn (s : EditorSt) : RRes × EditorSt :=
  if s.active then (.ok, s)
  else
    (.ok,
     { s with active := true
              styleElement := true
              hud := true
              listeners := [.mousemove, .click, .keydown, .resize] })

/-- `ManualEditor.stop` (manual-editor.ts:92): fails when not active;
otherwise clears hover/selection/snapshot, removes the four listeners,
removes the highlight box, HUD, panel and stylesheet, and clears the
toast. -/
def stopFn (s : EditorSt) : RRes × EditorSt :=
  if !s.active then (.err "Manual mode is not active", s)
  else
    (.ok,
     { s with active := false
              hoverElement := none
              selectedElement := none
              snapshot := none
              listeners := ((((s.listeners.filter (· ≠ .mousemove)).filter
                (· ≠ .click)).filter (· ≠ .keydown)).filter (· ≠ .resize))
              highlightBox := none
              hud := false
              editorPanel := false
              styleElement := false
              toastElement := false
              toastTimeout := none })

/-- `ManualEditor.selectElement` (manual-editor.ts:598): store the
selection, take a fresh snapshot, update the highlight, and (re)build the
editor panel (which owns the toast element).  The path always dereferences
for a live DOM reference; the `none` branch is unreachable and keeps the
model total. -/
def selectElementFn (env : Env) (page : DomTree) (s : EditorSt)
    (p : List Nat) : EditorSt :=
  match getPath p page with
  | none => s
  | some t =>
      { s with selectedElement := some p
               snapshot := some (createSnapshot (env.computedOf p) t.data)
               highlightBox := some (updateHighlight (env.rectOf p) env.scrollX env.scrollY)
               editorPanel := true
               toastElement := true }

/-- `ManualEditor.handleMouseMove` (manual-editor.ts:544). -/
def handleMouseMoveFn (env : Env) (page : DomTree) (s : EditorSt)
    (target : Option (List Nat)) : EditorSt :=
  if !s.active then s
  else
    match target with
    | none =>
        { s with hoverElement := none
                 highlightBox := s.highlightBox.map fun b => { b with display := "none" } }
    | some p =>
        match getPath p page with
        | none => s
        | some _ =>
            if isManualUIPath page p then
              { s with hoverElement := none
                       highlightBox := s.highlightBox.map fun b => { b with display := "none" } }
            else
              { s with hoverElement := some p
                       highlightBox := some (updateHighlight (env.rectOf p) env.scrollX env.scrollY) }

/-- `ManualEditor.handleClick` (manual-editor.ts:560): inactive editors and
clicks on editor chrome are ignored; any other click selects the target. -/
def handleClickFn (env : Env) (page : DomTree) (s : EditorSt)
    (target : Option (List Nat)) : EditorSt :=
  if !s.active then s
  else
    match target with
    | none => s
    | some p =>
        match getPath p page with
        | none => s
        | some _ =>
            if isManualUIPath page p then s
            else selectElementFn env page s p

/-- `ManualEditor.handleKeyDown` (manual-editor.ts:576): Escape stops the
editor. -/
def handleKeyDownFn (s : EditorSt) (key : String) : EditorSt :=
  if !s.active then s
  else if key = "Escape" then (stopFn s).2
  else s

/-- A DOM event as delivered to the document-level listeners. -/
inductive PageEvent where
  | mousemove (target : Option (List Nat))
  | click (target : Option (List Nat))
  | keydown (key : String)
  | resize
deriving DecidableEq, Repr

/-- Event delivery: a handler runs only while its listener is installed
(`window resize` recomputes panel geometry only, which is not modelled). -/
def dispatchEvent (env : Env) (page : DomTree) (s : EditorSt)
    (ev : PageEvent) : EditorSt :=
  match ev with
  | .mousemove tgt => if .mousemove ∈ s.listeners then handleMouseMoveFn env page s tgt else s
  | .click tgt => if .click ∈ s.listeners then handleClickFn env page s tgt else s
  | .keydown k => if .keydown ∈ s.listeners then handleKeyDownFn s k else s
  | .resize => s

/-- `ManualEditor.saveManualLayout` (manual-editor.ts:1672), with the
persistence collaborator's asynchronous reply passed in as `persist`.
Returns the new editor state, the toast message shown, and the commands
sent over the channel.  With no selection nothing is sent; on success the
snapshot is refreshed from the element's current (now-saved) state; on
failure the state is untouched and the failure message is surfaced. -/
def saveManualLayout (env : Env) (page : DomTree) (s : EditorSt)
    (persist : RRes) : EditorSt × Option String × List Cmd :=
  match s.selectedElement with
  | none => (s, some "No element selected", [])
  | some sel =>
      match persist with
      | .ok =>
          match getPath sel page with
          | some t =>
              ({ s with snapshot := some (createSnapshot (env.computedOf sel) t.data) },
               some "Saved manual layout", [.saveManualLayoutCmd])
          | none => (s, none, [.saveManualLayoutCmd])
      | .err m => (s, some ("Save failed: " ++ m), [.saveManualLayoutCmd])

/-- The page tree together with the editor singleton. -/
structure Sys where
  page : DomTree
  ed : EditorSt

/-- The public operations C10 ranges over: activation, teardown, selection
via click, panel-driven child/parent selection, reset, and save (carrying
the persistence reply). -/
inductive Op where
  | start
  | stop
  | click (target : Option (List Nat))
  | selectParent
  | selectChild (index : Nat)
  | reset
  | save (persist : RRes)

/-- One public operation, returning the new system state and the commands
the editor sent to the messaging channel while performing it. -/
def step (env : Env) (s : Sys) : Op → Sys × List Cmd
  | .start => ({ s with ed := (startFn s.ed).2 }, [])
  | .stop => ({ s with ed := (stopFn s.ed).2 }, [])
  | .click tgt => ({ s with ed := handleClickFn env s.page s.ed tgt }, [])
  | .selectParent =>
      match jumpToParent s.page s.ed.selectedElement with
      | .selectedNav pp => ({ s with ed := selectElementFn env s.page s.ed pp }, [])
      | _ => (s, [])
  | .selectChild i =>
      match selectChildNav s.page s.ed.editorPanel s.ed.selectedElement i with
      | .selectedNav cp => ({ s with ed := selectElementFn env s.page s.ed cp }, [])
      | _ => (s, [])
  | .reset =>
      match s.ed.selectedElement, s.ed.snapshot with
      | some p, some snap =>
          ({ s with page := modifyAt p (fun d => resetChangesElem d snap) s.page }, [])
      | _, _ => (s, [])
  | .save persist =>
      let r := saveManualLayout env s.page s.ed persist
      ({ s with ed := r.1 }, r.2.2)

def runOps (env : Env) (ops : List Op) (s : Sys) : Sys :=
  ops.foldl (fun acc op => (step env acc op).1) s

def initSys (page : DomTree) : Sys :=
  { page := page, ed := initialEditor }

/-- A system state reachable from a fresh editor on some page by public
operations. -/
def ReachableSys (env : Env) (page : DomTree) (s : Sys) : Prop :=
  ∃ ops : List Op, runOps env ops (initSys page) = s

/-- The C10 coupling invariant. -/
def InvSel (ed : EditorSt) : Prop :=
  (ed.snapshot.isSome ↔ ed.selectedElement.isSome) ∧
    (ed.active = false → ed.snapshot = none ∧ ed.selectedElement = none)

theorem lookupA_setAttrL (l : List (String × String)) (n v m : String) :
    lookupA (setAttrL l n v) m = if m = n then some v else lookupA l m := by
  induction l with
  | nil =>
      simp only [setAttrL, lookupA]
      by_cases h : m = n
      · simp [h]
      · rw [if_neg (fun hh => h hh.symm), if_neg h]
  | cons kv t ih =>
      obtain ⟨k, w⟩ := kv
      simp only [setAttrL]
      by_cases hk : k = n
      · subst hk
        simp only [if_pos rfl, lookupA]
        by_cases hm : k = m
        · simp_all [lookupA]
        · have hm' : ¬m = k := fun hh => hm hh.symm
          simp_all [lookupA]
      · simp only [if_neg hk, lookupA, ih]
        by_cases hm : k = m <;> by_cases hmn : m = n <;> simp_all [lookupA]

theorem lookupA_removeAttrL (l : List (String × String)) (n m : String) :
    lookupA (removeAttrL l n) m = if m = n then none else lookupA l m := by
  induction l with
  | nil =>
      by_cases h : m = n <;> simp [removeAttrL, lookupA, h]
  | cons kv t ih =>
      obtain ⟨k, w⟩ := kv
      simp only [removeAttrL, List.filter_cons] at ih ⊢
      by_cases hk : k = n <;> by_cases hm : m = n <;>
        by_cases hkm : k = m <;> simp_all [lookupA]

theorem lookupA_eq_none_of_not_mem (l : List (String × String)) (n : String)
    (h : n ∉ l.map Prod.fst) : lookupA l n = none := by
  induction l with
  | nil => rfl
  | cons kv t ih =>
      obtain ⟨k, w⟩ := kv
      simp only [List.map_cons, List.mem_cons] at h
      push_neg at h
      simp [lookupA, Ne.symm h.1, ih h.2]

theorem removeLoop_nil (snapA : List (String × String)) (l : List (String × String)) :
    removeLoop snapA [] l = l := rfl

theorem removeLoop_cons (snapA : List (String × String)) (m : String)
    (rest : List String) (l : List (String × String)) :
    removeLoop snapA (m :: rest) l =
      removeLoop snapA rest
        (if m = "style" then l
         else if (lookupA snapA m).isSome then l
         else removeAttrL l m) := rfl

theorem setLoop_nil (l : List (String × String)) :
    setLoop [] l = l := rfl

theorem setLoop_cons (kv : String × String) (rest : List (String × String))
    (l : List (String × String)) :
    setLoop (kv :: rest) l =
      setLoop rest (if kv.1 = "style" then l else setAttrL l kv.1 kv.2) := rfl

theorem lookupA_removeLoop_isSome (snapA : List (String × String))
    (names : List String) (l : List (String × String)) (n : String)
    (h : (lookupA snapA n).isSome) :
    lookupA (removeLoop snapA names l) n = lookupA l n := by
  induction names generalizing l with
  | nil => rfl
  | cons m rest ih =>
      rw [removeLoop_cons]
      by_cases hm : m = "style"
      · rw [if_pos hm]
        exact ih l
      · rw [if_neg hm]
        by_cases hs : (lookupA snapA m).isSome
        · rw [if_pos hs]
          exact ih l
        · rw [if_neg hs, ih (removeAttrL l m), lookupA_removeAttrL]
          have hmn : ¬n = m := by
            intro hh
            subst hh
            exact hs h
          rw [if_neg hmn]

theorem lookupA_removeLoop_style (snapA : List (String × String))
    (names : List String) (l : List (String × String)) :
    lookupA (removeLoop snapA names l) "style" = lookupA l "style" := by
  induction names generalizing l with
  | nil => rfl
  | cons m rest ih =>
      rw [removeLoop_cons]
      by_cases hm : m = "style"
      · rw [if_pos hm]
        exact ih l
      · rw [if_neg hm]
        by_cases hs : (lookupA snapA m).isSome
        · rw [if_pos hs]
          exact ih l
        · rw [if_neg hs, ih (removeAttrL l m), lookupA_removeAttrL,
            if_neg (fun hh : "style" = m => hm hh.symm)]

theorem lookupA_removeLoop_none (snapA : List (String × String))
    (names : List String) (l : List (String × String)) (n : String)
    (hn : n ≠ "style") (h : lookupA snapA n = none) :
    lookupA (removeLoop snapA names l) n =
      if n ∈ names then none else lookupA l n := by
  induction names generalizing l with
  | nil => simp [removeLoop_nil]
  | cons m rest ih =>
      rw [removeLoop_cons]
      by_cases hnm : n = m
      · subst hnm
        rw [if_neg hn, if_neg (by simp [h]), ih (removeAttrL l n),
          if_pos (List.mem_cons_self n rest)]
        by_cases hr : n ∈ rest
        · rw [if_pos hr]
        · rw [if_neg hr, lookupA_removeAttrL, if_pos rfl]
      · have hmemiff : (n ∈ m :: rest) ↔ (n ∈ rest) := by
          simp [List.mem_cons, hnm]
        have hstep : ∀ l' : List (String × String),
            lookupA (removeLoop snapA rest l') n =
              if n ∈ m :: rest then none else lookupA l' n := by
          intro l'
          rw [ih l']
          by_cases hr : n ∈ rest
          · rw [if_pos hr, if_pos (hmemiff.mpr hr)]
          · rw [if_neg hr, if_neg (fun hh => hr (hmemiff.mp hh))]
        by_cases hm : m = "style"
        · rw [if_pos hm]
          exact hstep l
        · rw [if_neg hm]
          by_cases hs : (lookupA snapA m).isSome
          · rw [if_pos hs]
            exact hstep l
          · rw [if_neg hs, hstep (removeAttrL l m), lookupA_removeAttrL]
            by_cases hmem : n ∈ m :: rest
            · rw [if_pos hmem, if_pos hmem]
            · rw [if_neg hmem, if_neg hnm, if_neg hmem]

theorem lookupA_setLoop_style (snapA : List (String × String))
    (l : List (String × String)) :
    lookupA (setLoop snapA l) "style" = lookupA l "style" := by
  induction snapA generalizing l with
  | nil => rfl
  | cons kv rest ih =>
      obtain ⟨k, w⟩ := kv
      rw [setLoop_cons]
      by_cases hk : (k, w).1 = "style"
      · rw [if_pos hk]
        exact ih l
      · rw [if_neg hk, ih (setAttrL l k w), lookupA_setAttrL,
          if_neg (fun hh : "style" = (k, w).1 => hk hh.symm)]

theorem lookupA_setLoop (snapA : List (String × String))
    (l : List (String × String)) (n : String)
    (hnd : (snapA.map Prod.fst).Nodup) (hn : n ≠ "style") :
    lookupA (setLoop snapA l) n = (lookupA snapA n).or (lookupA l n) := by
  induction snapA generalizing l with
  | nil => rfl
  | cons kv rest ih =>
      obtain ⟨k, w⟩ := kv
      simp only [List.map_cons, List.nodup_cons] at hnd
      rw [setLoop_cons]
      have hcons : lookupA ((k, w) :: rest) n = if k = n then some w else lookupA rest n := rfl
      by_cases hk : (k, w).1 = "style"
      · rw [if_pos hk]
        rw [ih l hnd.2, hcons, if_neg (fun hh : k = n => hn (hh ▸ hk))]
      · rw [if_neg hk, ih (setAttrL l k w) hnd.2, hcons]
        by_cases hkn : k = n
        · subst hkn
          rw [lookupA_eq_none_of_not_mem rest k hnd.1, if_pos rfl,
            lookupA_setAttrL, if_pos rfl]
          rfl
        · rw [if_neg hkn, lookupA_setAttrL, if_neg (fun hh : n = k => hkn hh.symm)]

/-- Core characterisation of `resetChanges` (manual-editor.ts:1641): the
resulting element's text is the snapshot text, and every attribute lookup
(`style` included) agrees with the snapshot. -/
theorem resetChangesElem_spec (el : DomElem) (snap : ElementSnapshot)
    (hnd : (snap.attributes.map Prod.fst).Nodup) :
    (resetChangesElem el snap).text = snap.text ∧
      ∀ n, (resetChangesElem el snap).getAttr n =
        if n = "style" then snap.style else lookupA snap.attributes n := by
  constructor
  · cases hs : snap.style <;> simp [resetChangesElem, hs]
  · intro n
    by_cases hn : n = "style"
    · subst hn
      rw [if_pos rfl]
      cases hs : snap.style with
      | none =>
          show lookupA _ "style" = none
          simp only [resetChangesElem, hs]
          rw [lookupA_setLoop_style, lookupA_removeLoop_style, lookupA_removeAttrL,
            if_pos rfl]
      | some s =>
          show lookupA _ "style" = some s
          simp only [resetChangesElem, hs]
          rw [lookupA_setLoop_style, lookupA_removeLoop_style, lookupA_setAttrL,
            if_pos rfl]
    · rw [if_neg hn]
      cases hsnap : lookupA snap.attributes n with
      | some v =>
          cases hs : snap.style <;>
            · show lookupA _ n = some v
              simp only [resetChangesElem, hs]
              rw [lookupA_setLoop _ _ n hnd hn, hsnap]
              rfl
      | none =>
          cases hs : snap.style with
          | none =>
              show lookupA _ n = none
              simp only [resetChangesElem, hs]
              rw [lookupA_setLoop _ _ n hnd hn, hsnap, Option.none_or,
                lookupA_removeLoop_none _ _ _ n hn hsnap]
              by_cases hmem : n ∈ (removeAttrL el.attrs "style").map Prod.fst
              · rw [if_pos hmem]
              · rw [if_neg hmem]
                exact lookupA_eq_none_of_not_mem _ n hmem
          | some s =>
              show lookupA _ n = none
              simp only [resetChangesElem, hs]
              rw [lookupA_setLoop _ _ n hnd hn, hsnap, Option.none_or,
                lookupA_removeLoop_none _ _ _ n hn hsnap]
              by_cases hmem : n ∈ (setAttrL el.attrs "style" s).map Prod.fst
              · rw [if_pos hmem]
              · rw [if_neg hmem]
                exact lookupA_eq_none_of_not_mem _ n hmem

/-- C1: Snapshot/Reset round-trip.  For any element selected while the
editor is active, after arbitrary mutations of its text, attributes and
styles, `reset()` restores the attribute set to exactly the snapshot's
set, the `style` attribute to exactly the snapshot's raw value, and the
text to the original text. -/
theorem snapshot_reset_roundtrip (computedEnv : String → String) (el₀ : DomElem)
    (muts : List Mutation) (hnd : (el₀.attrs.map Prod.fst).Nodup) :
    (resetChangesElem (applyMuts muts el₀) (createSnapshot computedEnv el₀)).text = el₀.text ∧
      ∀ n, (resetChangesElem (applyMuts muts el₀) (createSnapshot computedEnv el₀)).getAttr n =
        el₀.getAttr n := by
  have hsnd : ((createSnapshot computedEnv el₀).attributes.map Prod.fst).Nodup := hnd
  obtain ⟨ht, ha⟩ :=
    resetChangesElem_spec (applyMuts muts el₀) (createSnapshot computedEnv el₀) hsnd
  refine ⟨ht, fun n => ?_⟩
  rw [ha n]
  by_cases hn : n = "style"
  · subst hn
    rw [if_pos rfl]
    rfl
  · rw [if_neg hn]
    rfl

def elC1 : DomElem := ⟨"hello world", [("a", "1"), ("b", "2"), ("style", "color:red")]⟩

def mutsC1 : List Mutation :=
  [.updateAttrM "c" "3", .updateAttrM "a" "", .setStylePropM "color" "blue",
   .setStylePropM "font-size" "20px", .setTextM "changed"]

theorem snapshot_reset_roundtrip_witness :
    (elC1.attrs.map Prod.fst).Nodup ∧
      ((resetChangesElem (applyMuts mutsC1 elC1) (createSnapshot (fun _ => "") elC1)).text =
          elC1.text ∧
        ∀ n, (resetChangesElem (applyMuts mutsC1 elC1)
            (createSnapshot (fun _ => "") elC1)).getAttr n = elC1.getAttr n) :=
  ⟨by decide, snapshot_reset_roundtrip (fun _ => "") elC1 mutsC1 (by decide)⟩

/-- C6: No-attribute restore.  Selecting an element with no `style`
attribute, then adding one via inline style edits, then `reset()` removes
the `style` attribute entirely. -/
theorem no_style_attribute_restore (computedEnv : String → String) (el₀ : DomElem)
    (muts : List Mutation) (hnd : (el₀.attrs.map Prod.fst).Nodup)
    (hs : el₀.getAttr "style" = none) :
    (resetChangesElem (applyMuts muts el₀)
        (createSnapshot computedEnv el₀)).getAttr "style" = none := by
  have hsnd : ((createSnapshot computedEnv el₀).attributes.map Prod.fst).Nodup := hnd
  obtain ⟨-, ha⟩ :=
    resetChangesElem_spec (applyMuts muts el₀) (createSnapshot computedEnv el₀) hsnd
  rw [ha "style", if_pos rfl]
  exact hs

def elC6 : DomElem := ⟨"plain", [("a", "1")]⟩

def mutsC6 : List Mutation := [.setStylePropM "color" "blue"]

theorem no_style_attribute_restore_witness :
    ((elC6.attrs.map Prod.fst).Nodup ∧ elC6.getAttr "style" = none) ∧
      (applyMuts mutsC6 elC6).getAttr "style" = some "color: blue" ∧
      (resetChangesElem (applyMuts mutsC6 elC6)
          (createSnapshot (fun _ => "") elC6)).getAttr "style" = none :=
  ⟨⟨by decide, by decide⟩, by decide,
    no_style_attribute_restore (fun _ => "") elC6 mutsC6 (by decide) (by decide)⟩

def elC4 : DomElem := ⟨"t", [("style", "font-size: 12px")]⟩

/-- C4 counterexample: the claim says numeric style setters reject
non-numeric input with a `ValidationError` and leave the element
unmodified.  In the in-page panel a non-numeric entry of a `type="number"`
field surfaces as the empty value (`jsParseFloat` of it is `NaN`), and the
handler then clears the property, modifying the element; no error of any
kind is produced (the handler's switch returns nothing). -/
theorem numeric_validation_counterexample :
    jsParseFloat "" = none ∧ applyPanelInput elC4 "llm-font-size" "" ≠ elC4 :=
  ⟨by decide, by decide⟩

/-- C4 amended: only the side-panel's numeric style handlers reject
non-numeric input — `attachNumericStyleHandler` fails with
`Err('Invalid numeric value')` and sends no command, leaving the element
unmodified; the in-page panel's numeric controls perform no validation and
simply forward the (possibly empty) value to `setStyleProperty`. -/
theorem numeric_validation_amended :
    (∀ property unit value, value ≠ "" → jsParseFloat value = none →
        numericStyleHandlerStep property unit value =
          NumericOutcome.rejected "Invalid numeric value") ∧
      ∀ el value, applyPanelInput el "llm-font-size" value =
        setStyleProperty el "font-size" (pxOrEmpty value) := by
  refine ⟨fun property unit value hne hnan => ?_, fun el value => rfl⟩
  simp [numericStyleHandlerStep, hne, hnan]

theorem numeric_validation_amended_witness :
    ("abc" ≠ "" ∧ jsParseFloat "abc" = none) ∧
      numericStyleHandlerStep "font-size" "px" "abc" =
        NumericOutcome.rejected "Invalid numeric value" :=
  ⟨⟨by decide, by decide⟩,
    numeric_validation_amended.1 "font-size" "px" "abc" (by decide) (by decide)⟩

/-- C7: Reorder semantics.  `reorder(0,2)` on element children `[A,B,C]`
yields `[B,C,A]`; equal indices are a no-op; and when either index does
not resolve to an element child of the freshly recomputed list, the child
list is unchanged. -/
theorem reorder_semantics :
    reorderChild 0 2 [ChildNode.element "A", ChildNode.element "B", ChildNode.element "C"] =
        [ChildNode.element "B", ChildNode.element "C", ChildNode.element "A"] ∧
      (∀ (α : Type) (i : Nat) (l : List (ChildNode α)), reorderChild i i l = l) ∧
      ∀ (α : Type) (si ti : Nat) (l : List (ChildNode α)),
        (elementPositions l)[si]? = none ∨ (elementPositions l)[ti]? = none →
          reorderChild si ti l = l := by
  refine ⟨by decide, fun α i l => by simp [reorderChild], fun α si ti l h => ?_⟩
  by_cases hst : si = ti
  · simp [reorderChild, hst]
  · rcases h with h | h
    · simp [reorderChild, hst, h]
    · cases hsi : (elementPositions l)[si]? <;> simp [reorderChild, hst, h, hsi]

theorem reorder_semantics_witness :
    ((elementPositions [ChildNode.element "A", ChildNode.element "B",
        ChildNode.element "C"])[5]? = (none : Option Nat)) ∧
      reorderChild 0 5 [ChildNode.element "A", ChildNode.element "B", ChildNode.element "C"] =
        [ChildNode.element "A", ChildNode.element "B", ChildNode.element "C"] :=
  ⟨by decide, reorder_semantics.2.2 String 0 5 _ (Or.inr (by decide))⟩

def rectC8 : Rect := ⟨5, 7, 0, 0⟩

/-- C8 counterexample: the claim says a rectangle with zero width and zero
height makes `updateHighlight` hide the overlay.  The code has no such
branch: it unconditionally sets `display: block` (and positions the
fixed-position box at the rectangle plus the scroll offsets). -/
theorem update_highlight_counterexample :
    rectC8.width = 0 ∧ rectC8.height = 0 ∧
      (updateHighlight rectC8 3 4).display = "block" ∧ "block" ≠ "none" :=
  ⟨rfl, rfl, rfl, by decide⟩

/-- C8 amended: `updateHighlight` always shows the overlay (`display:
block`), writing `rect.top + scrollY` / `rect.left + scrollX` and the
rectangle's width and height; it never hides the overlay, zero-sized
rectangles included (hiding happens only in the mousemove handler when the
pointer is over editor chrome). -/
theorem update_highlight_amended (rect : Rect) (scrollX scrollY : ℚ) :
    updateHighlight rect scrollX scrollY =
        { display := "block", top := rect.top + scrollY, left := rect.left + scrollX,
          width := rect.width, height := rect.height } ∧
      (updateHighlight rect scrollX scrollY).display ≠ "none" := by
  refine ⟨rfl, ?_⟩
  show ("block" : String) ≠ "none"
  decide

def pageC5 : DomTree := .node ⟨"root", []⟩ true []

/-- C5 counterexample: the claim says `selectParent()` fails with a
`NoSelectionError` result when nothing is selected.  `jumpToParent` is a
`void` method that silently returns in that case — no error result of any
kind is produced. -/
theorem nav_error_results_counterexample :
    jumpToParent pageC5 none = NavOutcome.silent ∧
      claimedSelectParent none = NavOutcome.errorResult "NoSelectionError" ∧
      NavOutcome.silent ≠ NavOutcome.errorResult "NoSelectionError" :=
  ⟨rfl, rfl, by decide⟩

/-- C5 amended: the navigation boundary conditions are guarded exactly as
the claim lists them, but every failure is silent (or a
`No editable parent` toast for the parent case, which also covers a parent
that is editor chrome) rather than a typed error result: `jumpToParent`
silently no-ops with no selection, toasts when the selection has no parent
element or the parent is editor chrome, and otherwise selects the parent;
the `select-child` case silently no-ops without a panel or selection or
when the index does not resolve to an element child of the freshly
recomputed list, and otherwise selects that child. -/
theorem nav_boundary_amended (page : DomTree) :
    jumpToParent page none = NavOutcome.silent ∧
      (∀ p, jumpToParent page (some p) =
        match parentOf p with
        | none => NavOutcome.toast "No editable parent"
        | some pp =>
            if isManualUIPath page pp then NavOutcome.toast "No editable parent"
            else NavOutcome.selectedNav pp) ∧
      (∀ sel i, selectChildNav page false sel i = NavOutcome.silent) ∧
      (∀ i, selectChildNav page true none i = NavOutcome.silent) ∧
      (∀ p i t, getPath p page = some t →
        (elementPositions (t.kids.map fun c =>
            if c.isHtml then ChildNode.element c else ChildNode.other))[i]? = none →
          selectChildNav page true (some p) i = NavOutcome.silent) ∧
      ∀ p i t j, getPath p page = some t →
        (elementPositions (t.kids.map fun c =>
            if c.isHtml then ChildNode.element c else ChildNode.other))[i]? = some j →
          selectChildNav page true (some p) i = NavOutcome.selectedNav (p ++ [j]) := by
  refine ⟨rfl, fun p => rfl, fun sel i => rfl, fun i => rfl,
    fun p i t hget hpos => ?_, fun p i t j hget hpos => ?_⟩
  · simp [selectChildNav, hget, hpos]
  · simp [selectChildNav, hget, hpos]

theorem nav_boundary_amended_witness :
    (getPath [] pageC5 = some pageC5 ∧
      (elementPositions (pageC5.kids.map fun c =>
          if c.isHtml then ChildNode.element c else ChildNode.other))[0]? = none) ∧
      selectChildNav pageC5 true (some []) 0 = NavOutcome.silent :=
  ⟨⟨rfl, rfl⟩, (nav_boundary_amended pageC5).2.2.2.2.1 [] 0 pageC5 rfl rfl⟩

/-- Every listener `stop()` removes is one of the four installed kinds, so
the filtered list is empty. -/
theorem listeners_filter_nil (l : List Listener) :
    ((((l.filter (· ≠ Listener.mousemove)).filter (· ≠ Listener.click)).filter
        (· ≠ Listener.keydown)).filter (· ≠ Listener.resize)) = [] := by
  rw [List.eq_nil_iff_forall_not_mem]
  intro x hx
  simp only [List.mem_filter] at hx
  rcases x <;> simp_all

/-- C3: `stop()` fails with the not-active error when already inactive;
otherwise it removes every installed listener, removes every injected DOM
node (HUD, highlight box, panel, stylesheet, toast), clears the selection
and snapshot, transitions to inactive, and afterwards no editor listener
fires for any subsequent event. -/
theorem stop_teardown_complete (s : EditorSt) :
    (s.active = false → stopFn s = (RRes.err "Manual mode is not active", s)) ∧
      (s.active = true →
        (stopFn s).1 = RRes.ok ∧
          (stopFn s).2.active = false ∧
          (stopFn s).2.listeners = [] ∧
          (stopFn s).2.highlightBox = none ∧
          (stopFn s).2.hud = false ∧
          (stopFn s).2.editorPanel = false ∧
          (stopFn s).2.styleElement = false ∧
          (stopFn s).2.toastElement = false ∧
          (stopFn s).2.toastTimeout = none ∧
          (stopFn s).2.selectedElement = none ∧
          (stopFn s).2.snapshot = none ∧
          (stopFn s).2.hoverElement = none ∧
          ∀ (env : Env) (page : DomTree) (ev : PageEvent),
            dispatchEvent env page (stopFn s).2 ev = (stopFn s).2) := by
  constructor
  · intro h
    simp [stopFn, h]
  · intro h
    have hlist : (stopFn s).2.listeners = [] := by
      simp only [stopFn, h, Bool.not_true, Bool.false_eq_true, if_false]
      exact listeners_filter_nil s.listeners
    refine ⟨by simp [stopFn, h], by simp [stopFn, h], hlist, by simp [stopFn, h],
      by simp [stopFn, h], by simp [stopFn, h], by simp [stopFn, h], by simp [stopFn, h],
      by simp [stopFn, h], by simp [stopFn, h], by simp [stopFn, h], by simp [stopFn, h],
      fun env page ev => ?_⟩
    cases ev with
    | mousemove tgt => simp [dispatchEvent, hlist]
    | click tgt => simp [dispatchEvent, hlist]
    | keydown k => simp [dispatchEvent, hlist]
    | resize => rfl

def edC3 : EditorSt :=
  { active := true
    hoverElement := some [1]
    selectedElement := some [0]
    snapshot := some (createSnapshot (fun _ => "") ⟨"x", []⟩)
    highlightBox := some (updateHighlight ⟨0, 0, 1, 1⟩ 0 0)
    hud := true
    editorPanel := true
    styleElement := true
    toastElement := true
    toastTimeout := some 7
    listeners := [.mousemove, .click, .keydown, .resize] }

theorem stop_teardown_complete_witness :
    edC3.active = true ∧
      ((stopFn edC3).1 = RRes.ok ∧
        (stopFn edC3).2.active = false ∧
        (stopFn edC3).2.listeners = [] ∧
        (stopFn edC3).2.highlightBox = none ∧
        (stopFn edC3).2.hud = false ∧
        (stopFn edC3).2.editorPanel = false ∧
        (stopFn edC3).2.styleElement = false ∧
        (stopFn edC3).2.toastElement = false ∧
        (stopFn edC3).2.toastTimeout = none ∧
        (stopFn edC3).2.selectedElement = none ∧
        (stopFn edC3).2.snapshot = none ∧
        (stopFn edC3).2.hoverElement = none ∧
        ∀ (env : Env) (page : DomTree) (ev : PageEvent),
          dispatchEvent env page (stopFn edC3).2 ev = (stopFn edC3).2) :=
  ⟨rfl, (stop_teardown_complete edC3).2 rfl⟩

/-- C9: `saveLayout` effect on internal state.  When the persistence call
succeeds, the snapshot is refreshed to the selected element's now-saved
state and nothing else changes; when it fails, the failure message is
surfaced as a toast and the editor state is left exactly as it was. -/
theorem save_layout_state_effect (env : Env) (page : DomTree) (s : EditorSt)
    (sel : List Nat) (t : DomTree) (hsel : s.selectedElement = some sel)
    (hget : getPath sel page = some t) :
    saveManualLayout env page s RRes.ok =
        ({ s with snapshot := some (createSnapshot (env.computedOf sel) t.data) },
          some "Saved manual layout", [Cmd.saveManualLayoutCmd]) ∧
      ∀ m, saveManualLayout env page s (RRes.err m) =
        (s, some ("Save failed: " ++ m), [Cmd.saveManualLayoutCmd]) := by
  constructor
  · simp [saveManualLayout, hsel, hget]
  · intro m
    simp [saveManualLayout, hsel]

def envW : Env := ⟨fun _ _ => "", fun _ => ⟨0, 0, 1, 1⟩, 0, 0⟩

def pageC9 : DomTree := .node ⟨"body", []⟩ true []

def edC9 : EditorSt :=
  { initialEditor with
      active := true
      selectedElement := some []
      snapshot := some (createSnapshot (fun _ => "") ⟨"body", []⟩)
      editorPanel := true
      toastElement := true }

theorem save_layout_state_effect_witness :
    (edC9.selectedElement = some [] ∧ getPath [] pageC9 = some pageC9) ∧
      (saveManualLayout envW pageC9 edC9 RRes.ok =
          ({ edC9 with
              snapshot := some (createSnapshot (envW.computedOf []) pageC9.data) },
            some "Saved manual layout", [Cmd.saveManualLayoutCmd]) ∧
        ∀ m, saveManualLayout envW pageC9 edC9 (RRes.err m) =
          (edC9, some ("Save failed: " ++ m), [Cmd.saveManualLayoutCmd])) :=
  ⟨⟨rfl, rfl⟩, save_layout_state_effect envW pageC9 edC9 [] pageC9 rfl rfl⟩

/-- C2 (evidence for the code bug): no public operation of the editor ever
emits a `MANUAL_STATE_UPDATED` broadcast — the only command the editor
sends is `SAVE_MANUAL_LAYOUT` — and the content script answers every
`MANUAL_*` mutation command with the `Unknown command` failure, so the
claimed one-broadcast-per-mutation behaviour never happens. -/
theorem no_state_broadcast_emitted :
    (∀ (env : Env) (s : Sys) (op : Op), countBroadcasts (step env s op).2 = 0) ∧
      contentDispatch (Cmd.manualSetText "hello") = ContentReply.failure "Unknown command" ∧
      contentDispatch Cmd.manualSelectParent = ContentReply.failure "Unknown command" ∧
      contentDispatch (Cmd.manualSetStyle "color" "red") =
        ContentReply.failure "Unknown command" ∧
      contentDispatch Cmd.manualReset = ContentReply.failure "Unknown command" := by
  refine ⟨fun env s op => ?_, rfl, rfl, rfl, rfl⟩
  cases op with
  | start => rfl
  | stop => rfl
  | click tgt => rfl
  | selectParent =>
      cases h : jumpToParent s.page s.ed.selectedElement <;> simp [step, h, countBroadcasts]
  | selectChild i =>
      cases h : selectChildNav s.page s.ed.editorPanel s.ed.selectedElement i <;>
        simp [step, h, countBroadcasts]
  | reset =>
      cases hsel : s.ed.selectedElement <;> cases hsnap : s.ed.snapshot <;>
        simp [step, hsel, hsnap, countBroadcasts]
  | save persist =>
      cases hsel : s.ed.selectedElement with
      | none => simp [step, saveManualLayout, hsel, countBroadcasts]
      | some sel =>
          cases persist with
          | ok =>
              cases hget : getPath sel s.page <;>
                simp [step, saveManualLayout, hsel, hget, countBroadcasts, List.filter]
          | err m => simp [step, saveManualLayout, hsel, countBroadcasts, List.filter]

/-- `selectElement` preserves the coupling invariant when the editor is
active: it sets the selection and the snapshot together. -/
theorem invSel_selectElementFn (env : Env) (page : DomTree) (ed : EditorSt)
    (p : List Nat) (h : InvSel ed) (ha : ed.active = true) :
    InvSel (selectElementFn env page ed p) := by
  cases hg : getPath p page with
  | none => simpa [selectElementFn, hg] using h
  | some t =>
      constructor
      · simp [selectElementFn, hg]
      · intro hcontr
        simp [selectElementFn, hg, ha] at hcontr

/-- Every public operation preserves the coupling invariant. -/
theorem invSel_step (env : Env) (s : Sys) (op : Op) (h : InvSel s.ed) :
    InvSel (step env s op).1.ed := by
  cases op with
  | start =>
      cases ha : s.ed.active with
      | true => simpa [step, startFn, ha] using h
      | false =>
          obtain ⟨h1, h2⟩ := h.2 ha
          constructor
          · simp [step, startFn, ha, h1, h2]
          · intro hcontr
            simp [step, startFn, ha] at hcontr
  | stop =>
      cases ha : s.ed.active with
      | false => simpa [step, stopFn, ha] using h
      | true =>
          constructor
          · simp [step, stopFn, ha]
          · intro hcontr
            simp [step, stopFn, ha]
  | click tgt =>
      cases ha : s.ed.active with
      | false => simpa [step, handleClickFn, ha] using h
      | true =>
          cases tgt with
          | none => simpa [step, handleClickFn, ha] using h
          | some p =>
              cases hg : getPath p s.page with
              | none => simpa [step, handleClickFn, ha, hg] using h
              | some u =>
                  cases hui : isManualUIPath s.page p with
                  | true => simpa [step, handleClickFn, ha, hg, hui] using h
                  | false =>
                      have hpres := invSel_selectElementFn env s.page s.ed p h ha
                      simpa [step, handleClickFn, ha, hg, hui] using hpres
  | selectParent =>
      cases hj : jumpToParent s.page s.ed.selectedElement with
      | silent => simpa [step, hj] using h
      | toast m => simpa [step, hj] using h
      | errorResult k => simpa [step, hj] using h
      | selectedNav pp =>
          have hsel : ∃ q, s.ed.selectedElement = some q := by
            cases hs : s.ed.selectedElement with
            | none =>
                rw [hs] at hj
                simp [jumpToParent] at hj
            | some q => exact ⟨q, rfl⟩
          obtain ⟨q, hq⟩ := hsel
          have ha : s.ed.active = true := by
            cases hab : s.ed.active with
            | true => rfl
            | false =>
                obtain ⟨-, h2⟩ := h.2 hab
                rw [hq] at h2
                cases h2
          have hpres := invSel_selectElementFn env s.page s.ed pp h ha
          simpa [step, hj] using hpres
  | selectChild i =>
      cases hj : selectChildNav s.page s.ed.editorPanel s.ed.selectedElement i with
      | silent => simpa [step, hj] using h
      | toast m => simpa [step, hj] using h
      | errorResult k => simpa [step, hj] using h
      | selectedNav cp =>
          have hsel : ∃ q, s.ed.selectedElement = some q := by
            cases hs : s.ed.selectedElement with
            | none =>
                rw [hs] at hj
                cases hp : s.ed.editorPanel <;> rw [hp] at hj <;>
                  simp [selectChildNav] at hj
            | some q => exact ⟨q, rfl⟩
          obtain ⟨q, hq⟩ := hsel
          have ha : s.ed.active = true := by
            cases hab : s.ed.active with
            | true => rfl
            | false =>
                obtain ⟨-, h2⟩ := h.2 hab
                rw [hq] at h2
                cases h2
          have hpres := invSel_selectElementFn env s.page s.ed cp h ha
          simpa [step, hj] using hpres
  | reset =>
      cases hs : s.ed.selectedElement <;> cases hn : s.ed.snapshot <;>
        simpa [step, hs, hn] using h
  | save persist =>
      cases hs : s.ed.selectedElement with
      | none => simpa [step, saveManualLayout, hs] using h
      | some sel =>
          have ha : s.ed.active = true := by
            cases hab : s.ed.active with
            | true => rfl
            | false =>
                obtain ⟨-, h2⟩ := h.2 hab
                rw [hs] at h2
                cases h2
          cases persist with
          | err m => simpa [step, saveManualLayout, hs] using h
          | ok =>
              cases hg : getPath sel s.page with
              | none => simpa [step, saveManualLayout, hs, hg] using h
              | some t =>
                  constructor
                  · simp [step, saveManualLayout, hs, hg]
                  · intro hcontr
                    simp [step, saveManualLayout, hs, hg, ha] at hcontr

/-- C10: in every reachable editor state the stored snapshot is non-null
exactly when a selected element is non-null, and both are null whenever
the editor is inactive; every public operation preserves this coupling. -/
theorem selection_snapshot_coupling (env : Env) (page : DomTree) (s : Sys)
    (h : ReachableSys env page s) : InvSel s.ed := by
  obtain ⟨ops, rfl⟩ := h
  have hrun : ∀ (l : List Op) (s₀ : Sys), InvSel s₀.ed → InvSel (runOps env l s₀).ed := by
    intro l
    induction l with
    | nil => intro s₀ h₀; exact h₀
    | cons op rest ih =>
        intro s₀ h₀
        exact ih (step env s₀ op).1 (invSel_step env s₀ op h₀)
  refine hrun ops (initSys page) ?_
  constructor
  · simp [initSys, initialEditor]
  · intro hcontr
    exact ⟨rfl, rfl⟩

def pageC10 : DomTree := .node ⟨"body", []⟩ true [.node ⟨"child", []⟩ true []]

def opsC10 : List Op := [Op.start, Op.click (some [0])]

theorem selection_snapshot_coupling_witness :
    ReachableSys envW pageC10 (runOps envW opsC10 (initSys pageC10)) ∧
      InvSel (runOps envW opsC10 (initSys pageC10)).ed :=
  ⟨⟨opsC10, rfl⟩,
    selection_snapshot_coupling envW pageC10 (runOps envW opsC10 (initSys pageC10))
      ⟨opsC10, rfl⟩⟩
